import Mathlib

/-!
Verification of the `imageIO` pixel-buffer bridge
(`src/aliceVision/imageIO/image.cpp`).

The module is a thin wrapper over a generic image library (OpenImageIO).
We embed the wrapper's own control flow and buffer bookkeeping directly
from the source; the handful of library primitives the wrapper calls
(`transpose`, `channel_sum`, `paste`, `get_pixels`) are modelled from
their documented behaviour, which the specification restates.

Machine integers (`int`) are modelled as `ℕ` (all quantities involved are
non-negative and far from overflow in every claim considered); pixel
component values are modelled as exact rationals `ℚ`.
-/

namespace ImageIOModel

/-- The four pixel layouts the bridge exposes: 1-channel 8-bit,
3-channel 8-bit, 1-channel float, 3-channel float. -/
inductive PixelKind where
  | byteGray
  | byteRGB
  | floatGray
  | floatRGB
deriving DecidableEq

/-- The channel count each public overload passes to the internal
template (`readImage(path, TypeDesc::UCHAR, 1, ...)` etc., and likewise
for write/transpose/resize/convolve): 1 for the scalar element kinds,
3 for the `rgb` / `Color` element kinds. -/
def PixelKind.channels : PixelKind → ℕ
  | .byteGray => 1
  | .byteRGB => 3
  | .floatGray => 1
  | .floatRGB => 3

/-!
## transposeImage

`transposeImage(typeDesc, width, height, nchannels, buffer)` wraps
`buffer` as a `width × height` image with `nchannels` interleaved
channels, computes the library transpose (output pixel `(x, y)` equals
input pixel `(y, x)`, output resolution `height × width`), and reads the
transposed pixels back into the same buffer in scanline order.

In flat scalar indexing: the output value at index
`(y * height + x) * nchannels + c` (with `x < height`, `y < width`,
`c < nchannels`) is the input value at index
`(x * width + y) * nchannels + c`.
-/

/-- Modelled from the source plus the documented behaviour of the
library primitives `ImageBufAlgo::transpose` and `get_pixels`: the
buffer after `transposeImage(width, height, nchannels, buffer)`.
Scalar index `i` of the result decomposes as channel `i % nchannels`
and pixel `p := i / nchannels` with output column `p % height` and
output row `p / height`; its value is the input scalar at the original
layout's pixel `(column, row) = (p / height, p % height)`, i.e. at flat
index `(p % height * width + p / height) * nchannels + i % nchannels`. -/
def transposeImage {α : Type} [Inhabited α] (width height nchannels : ℕ)
    (buffer : List α) : List α :=
  List.ofFn (fun i : Fin (width * height * nchannels) =>
    buffer.getD
      (((i : ℕ) / nchannels % height * width + (i : ℕ) / nchannels / height) * nchannels
        + (i : ℕ) % nchannels)
      default)

theorem transposeImage_length {α : Type} [Inhabited α]
    (width height nchannels : ℕ) (buffer : List α) :
    (transposeImage width height nchannels buffer).length
      = width * height * nchannels := by
  simp [transposeImage]

theorem transposeImage_getD {α : Type} [Inhabited α]
    (width height nchannels : ℕ) (buffer : List α) (i : ℕ)
    (hi : i < width * height * nchannels) :
    (transposeImage width height nchannels buffer).getD i default
      = buffer.getD
          ((i / nchannels % height * width + i / nchannels / height) * nchannels
            + i % nchannels)
          default := by
  have hlen : i < (transposeImage width height nchannels buffer).length := by
    simpa [transposeImage_length] using hi
  rw [List.getD_eq_getElem _ _ hlen]
  simp [transposeImage]

/-- Pixel-index bound: a transposed pixel index stays below `w * h`. -/
theorem transpose_pixel_lt (w h p : ℕ) (hw : 0 < w) (hp : p < h * w) :
    p % w * h + p / w < w * h := by
  have h1 : p % w < w := Nat.mod_lt _ hw
  have h2 : p / w < h := (Nat.div_lt_iff_lt_mul hw).mpr hp
  calc p % w * h + p / w < p % w * h + h := Nat.add_lt_add_left h2 _
    _ = (p % w + 1) * h := by ring
    _ ≤ w * h := Nat.mul_le_mul_right h (Nat.succ_le_of_lt h1)

/-- Applying the transposed-index map twice (with the roles of width and
height exchanged on the second application) is the identity on scalar
indices. -/
theorem transpose_index_involution (w h nch i : ℕ) (hw : 0 < w) (hh : 0 < h)
    (hnch : 0 < nch) (hi : i < h * w * nch) :
    (((i / nch % w * h + i / nch / w) * nch + i % nch) / nch % h * w
        + ((i / nch % w * h + i / nch / w) * nch + i % nch) / nch / h) * nch
      + ((i / nch % w * h + i / nch / w) * nch + i % nch) % nch = i := by
  have hc : i % nch < nch := Nat.mod_lt _ hnch
  have hp : i / nch < h * w := (Nat.div_lt_iff_lt_mul hnch).mpr hi
  have hdivw : i / nch / w < h := (Nat.div_lt_iff_lt_mul hw).mpr hp
  have hmod : ((i / nch % w * h + i / nch / w) * nch + i % nch) % nch = i % nch := by
    rw [mul_comm (i / nch % w * h + i / nch / w) nch, Nat.mul_add_mod,
      Nat.mod_eq_of_lt hc]
  have hdiv : ((i / nch % w * h + i / nch / w) * nch + i % nch) / nch
      = i / nch % w * h + i / nch / w := by
    rw [mul_comm (i / nch % w * h + i / nch / w) nch, Nat.mul_add_div hnch,
      Nat.div_eq_of_lt hc, Nat.add_zero]
  rw [hmod, hdiv]
  have hqm : (i / nch % w * h + i / nch / w) % h = i / nch / w := by
    rw [mul_comm (i / nch % w) h, Nat.mul_add_mod, Nat.mod_eq_of_lt hdivw]
  have hqd : (i / nch % w * h + i / nch / w) / h = i / nch % w := by
    rw [mul_comm (i / nch % w) h, Nat.mul_add_div hh, Nat.div_eq_of_lt hdivw,
      Nat.add_zero]
  rw [hqm, hqd]
  have hpw : i / nch / w * w + i / nch % w = i / nch := by
    rw [mul_comm, Nat.div_add_mod]
  rw [hpw, mul_comm, Nat.div_add_mod]

/-- Claim C1 (counterexample): applying `transposeImage` twice *with the
same `width`, `height` arguments on both calls* does not restore the
original buffer when the image is not square — here a 2×3 single-channel
image. -/
theorem transposeImage_same_args_not_involutive :
    transposeImage 2 3 1 (transposeImage 2 3 1 ([0, 1, 2, 3, 4, 5] : List ℕ))
      ≠ [0, 1, 2, 3, 4, 5] := by
  decide

/-- Claim C1 (amended): for every width, height, channel count and
element type, applying `transposeImage` with arguments `(width, height)`
and then with the swapped arguments `(height, width)` to the same buffer
restores the original pixel values exactly; with the same arguments on
both calls the restoration can fail when `width ≠ height` (see the 2×3
counterexample above). Since the operation neither returns nor swaps
the reported dimensions, the caller must pass the swapped dimensions on
the second call. -/
theorem transposeImage_swapped_involution {α : Type} [Inhabited α]
    (w h nch : ℕ) (b : List α) (hb : b.length = w * h * nch) :
    transposeImage h w nch (transposeImage w h nch b) = b := by
  apply List.ext_getElem
  · rw [transposeImage_length, hb]; ring
  · intro i h1 h2
    have hi : i < h * w * nch := by rwa [transposeImage_length] at h1
    have hnch : 0 < nch := by
      rcases Nat.eq_zero_or_pos nch with h0 | h0
      · subst h0; simp at hi
      · exact h0
    have hw : 0 < w := by
      rcases Nat.eq_zero_or_pos w with h0 | h0
      · subst h0; simp at hi
      · exact h0
    have hh : 0 < h := by
      rcases Nat.eq_zero_or_pos h with h0 | h0
      · subst h0; simp at hi
      · exact h0
    rw [← List.getD_eq_getElem _ default h1, ← List.getD_eq_getElem _ default h2]
    rw [transposeImage_getD h w nch _ i hi]
    have hj : (i / nch % w * h + i / nch / w) * nch + i % nch < w * h * nch := by
      have hp : i / nch < h * w := (Nat.div_lt_iff_lt_mul hnch).mpr hi
      have hq := transpose_pixel_lt w h (i / nch) hw hp
      have hc : i % nch < nch := Nat.mod_lt _ hnch
      calc (i / nch % w * h + i / nch / w) * nch + i % nch
          < (i / nch % w * h + i / nch / w) * nch + nch := Nat.add_lt_add_left hc _
        _ = (i / nch % w * h + i / nch / w + 1) * nch := by ring
        _ ≤ w * h * nch := Nat.mul_le_mul_right nch (Nat.succ_le_of_lt hq)
    rw [transposeImage_getD w h nch b _ hj]
    rw [transpose_index_involution w h nch i hw hh hnch hi]

/-- Witness for the amended C1 theorem at a concrete input: a 2×3
single-channel buffer round-trips through transpose with swapped
arguments on the second call. -/
theorem transposeImage_swapped_involution_witness :
    ([0, 1, 2, 3, 4, 5] : List ℕ).length = 2 * 3 * 1 ∧
    transposeImage 3 2 1 (transposeImage 2 3 1 ([0, 1, 2, 3, 4, 5] : List ℕ))
      = [0, 1, 2, 3, 4, 5] :=
  ⟨by decide, transposeImage_swapped_involution 2 3 1 [0, 1, 2, 3, 4, 5] (by decide)⟩

/-!
## readImage

`readImage(path, typeDesc, nchannels, width, height, buffer)`:
open the source (throw on failure), check the source channel count
(throw if it is neither 1 nor ≥ 3), optionally reduce to grayscale
(`channel_sum` with the fixed Rec.709 weights over channels 0..2),
optionally expand a 1-channel working image to the requested channel
count (three `paste` calls replicating channel 0 into channels 0, 1, 2
of a zero-initialised buffer), then report the source dimensions and
extract channels `[0, nchannels)` into the output buffer in interleaved
scanline order.
-/

/-- An opened source image as the library exposes it: resolution,
channel count, and a pixel-component accessor `pixel x y c`.
Component values are modelled as exact rationals. -/
structure SourceImage where
  width : ℕ
  height : ℕ
  nchannels : ℕ
  pixel : ℕ → ℕ → ℕ → ℚ

/-- The two failures `readImage` can raise (both `std::runtime_error`
in the source, distinguished by their messages). -/
inductive ReadError where
  | fileOpenError
  | unsupportedChannelLayout
deriving DecidableEq

/-- The caller-owned output locations of `readImage`: the `width` and
`height` out-parameters and the output `buffer` (flat scalar stream). -/
structure ReadState where
  width : ℕ
  height : ℕ
  buffer : List ℚ
deriving DecidableEq

/-- Modelled from the documented behaviour of the library primitive
`ImageBufAlgo::paste(dst, 0, 0, 0, chbegin, src)`: every channel `j` of
`src` is copied into channel `chbegin + j` of `dst` over `src`'s full
region; all other components of `dst` are unchanged. -/
def paste (dst : SourceImage) (chbegin : ℕ) (src : SourceImage) : SourceImage :=
  { dst with
    pixel := fun x y c =>
      if x < src.width ∧ y < src.height ∧ chbegin ≤ c ∧ c < chbegin + src.nchannels
      then src.pixel x y (c - chbegin)
      else dst.pixel x y c }

/-- Modelled from the documented behaviour of the library primitive
`ImageBufAlgo::channel_sum` at the source's call site: summing channels
`[0, 3)` with the fixed weights `{.2126, .7152, .0722}` yields a
1-channel image of the same resolution. -/
def channelSum3 (img : SourceImage) : SourceImage :=
  { width := img.width
    height := img.height
    nchannels := 1
    pixel := fun x y c =>
      if c = 0 then
        (2126 / 10000 : ℚ) * img.pixel x y 0
          + (7152 / 10000 : ℚ) * img.pixel x y 1
          + (722 / 10000 : ℚ) * img.pixel x y 2
      else 0 }

/-- The internal `readImage` template, embedded step for step from the
source. `source = none` models a path that cannot be opened. The steps,
in source order: throw `fileOpenError` if the source cannot be opened;
throw `unsupportedChannelLayout` if the source channel count is ≠ 1 and
< 3; if `nchannels = 1` and the source has ≥ 3 channels, replace the
working image by its Rec.709 channel sum; if the requested channel
count exceeds the working channel count, build a zero-initialised image
of the requested shape and, when expanding to ≥ 3 channels from < 3,
paste the working image at channel offsets 0, 1 and 2; finally report
the source's width and height and extract channels `[0, nchannels)`
into the buffer in interleaved scanline order
(`buffer[(y * width + x) * nchannels + c] = working.pixel x y c`).
On a throw, the caller's `ReadState` is returned untouched. -/
def readImageSt (nchannels : ℕ) (source : Option SourceImage)
    (st : ReadState) : ReadState × Option ReadError :=
  match source with
  | none => (st, some .fileOpenError)
  | some inBuf =>
    if inBuf.nchannels ≠ 1 ∧ inBuf.nchannels < 3 then
      (st, some .unsupportedChannelLayout)
    else
      let afterGray :=
        if nchannels = 1 ∧ 3 ≤ inBuf.nchannels then channelSum3 inBuf else inBuf
      let working :=
        if afterGray.nchannels < nchannels then
          let requested : SourceImage :=
            { width := afterGray.width
              height := afterGray.height
              nchannels := nchannels
              pixel := fun _ _ _ => 0 }
          if 3 ≤ nchannels ∧ afterGray.nchannels < 3 then
            paste (paste (paste requested 0 afterGray) 1 afterGray) 2 afterGray
          else requested
        else afterGray
      ({ width := inBuf.width
         height := inBuf.height
         buffer := List.ofFn (fun i : Fin (inBuf.width * inBuf.height * nchannels) =>
           working.pixel ((i : ℕ) / nchannels % inBuf.width)
             ((i : ℕ) / nchannels / inBuf.width) ((i : ℕ) % nchannels)) },
       none)

/-- Claim C2: for every requested pixel kind, `readImage` on an opened
source whose channel count is neither 1 nor ≥ 3 throws
`unsupportedChannelLayout` (leaving the outputs untouched), and runs to
success whenever the source channel count is 1 or ≥ 3. -/
theorem readImage_channel_layout_check (k : PixelKind) (src : SourceImage)
    (st : ReadState) :
    (¬ (src.nchannels = 1 ∨ 3 ≤ src.nchannels) →
      readImageSt k.channels (some src) st
        = (st, some ReadError.unsupportedChannelLayout)) ∧
    ((src.nchannels = 1 ∨ 3 ≤ src.nchannels) →
      (readImageSt k.channels (some src) st).2 = none) := by
  constructor
  · intro hbad
    push_neg at hbad
    rw [readImageSt, if_pos ⟨hbad.1, by omega⟩]
  · intro hok
    rw [readImageSt, if_neg (by omega)]

/-- Witness for C2: a 2-channel source is rejected with
`unsupportedChannelLayout`, and a 3-channel source passes the check. -/
theorem readImage_channel_layout_check_witness :
    readImageSt PixelKind.byteGray.channels
        (some ⟨4, 4, 2, fun _ _ _ => 0⟩) ⟨0, 0, []⟩
      = (⟨0, 0, []⟩, some ReadError.unsupportedChannelLayout) ∧
    (readImageSt PixelKind.byteGray.channels
        (some ⟨4, 4, 3, fun _ _ _ => 0⟩) ⟨0, 0, []⟩).2 = none :=
  ⟨(readImage_channel_layout_check PixelKind.byteGray
      ⟨4, 4, 2, fun _ _ _ => 0⟩ ⟨0, 0, []⟩).1 (by simp),
   (readImage_channel_layout_check PixelKind.byteGray
      ⟨4, 4, 3, fun _ _ _ => 0⟩ ⟨0, 0, []⟩).2 (by simp)⟩

/-- Decomposing the interleaved scanline index
`(y * w + x) * nch + c` back into its coordinates, plus its bound. -/
theorem flat_index_decomp (w h nch x y c : ℕ) (hx : x < w) (hy : y < h)
    (hc : c < nch) :
    ((y * w + x) * nch + c) % nch = c ∧
    ((y * w + x) * nch + c) / nch % w = x ∧
    ((y * w + x) * nch + c) / nch / w = y ∧
    (y * w + x) * nch + c < w * h * nch := by
  have h1 : ((y * w + x) * nch + c) % nch = c := by
    rw [mul_comm (y * w + x) nch, Nat.mul_add_mod, Nat.mod_eq_of_lt hc]
  have h2 : ((y * w + x) * nch + c) / nch = y * w + x := by
    rw [mul_comm (y * w + x) nch, Nat.mul_add_div (by omega),
      Nat.div_eq_of_lt hc, Nat.add_zero]
  have h3 : (y * w + x) % w = x := by
    rw [mul_comm y w, Nat.mul_add_mod, Nat.mod_eq_of_lt hx]
  have h4 : (y * w + x) / w = y := by
    rw [mul_comm y w, Nat.mul_add_div (by omega), Nat.div_eq_of_lt hx,
      Nat.add_zero]
  refine ⟨h1, by rw [h2, h3], by rw [h2, h4], ?_⟩
  have hyw : y * w + x + 1 ≤ w * h := by
    calc y * w + x + 1 ≤ y * w + w := by omega
      _ = (y + 1) * w := by ring
      _ ≤ h * w := Nat.mul_le_mul_right w (by omega)
      _ = w * h := by ring
  calc (y * w + x) * nch + c < (y * w + x) * nch + nch := by omega
    _ = (y * w + x + 1) * nch := by ring
    _ ≤ w * h * nch := Nat.mul_le_mul_right nch hyw

/-- Reading the interleaved extraction buffer at the flat index of pixel
`(x, y)`, channel `c`, returns the working image's component there. -/
theorem readImage_extract_getD (w h nch : ℕ) (f : ℕ → ℕ → ℕ → ℚ) (x y c : ℕ)
    (hx : x < w) (hy : y < h) (hc : c < nch) :
    (List.ofFn (fun i : Fin (w * h * nch) =>
        f ((i : ℕ) / nch % w) ((i : ℕ) / nch / w) ((i : ℕ) % nch))).getD
      ((y * w + x) * nch + c) 0 = f x y c := by
  obtain ⟨h1, h2, h3, h4⟩ := flat_index_decomp w h nch x y c hx hy hc
  have hlen : (y * w + x) * nch + c
      < (List.ofFn (fun i : Fin (w * h * nch) =>
          f ((i : ℕ) / nch % w) ((i : ℕ) / nch / w) ((i : ℕ) % nch))).length := by
    simpa using h4
  rw [List.getD_eq_getElem _ _ hlen, List.getElem_ofFn]
  simp [h1, h2, h3]

/-- Branch shape of `readImage` when expanding a 1-channel source to a
3-channel target: the working image is the triple paste of the source
into a zero-initialised 3-channel image, and no error is raised. -/
theorem readImageSt_rgb_of_gray (src : SourceImage) (st : ReadState)
    (hsrc : src.nchannels = 1) :
    readImageSt 3 (some src) st =
      ({ width := src.width
         height := src.height
         buffer := List.ofFn (fun i : Fin (src.width * src.height * 3) =>
           (paste (paste (paste
               ⟨src.width, src.height, 3, fun _ _ _ => 0⟩ 0 src) 1 src) 2 src).pixel
             ((i : ℕ) / 3 % src.width) ((i : ℕ) / 3 / src.width)
             ((i : ℕ) % 3)) }, none) := by
  simp only [readImageSt, hsrc]
  norm_num
  simp [hsrc]

/-- Evaluating the triple paste of a 1-channel image into the first
three channels: every channel below 3 holds the source's channel 0. -/
theorem paste3_pixel (src : SourceImage) (hsrc : src.nchannels = 1)
    (x y c : ℕ) (hx : x < src.width) (hy : y < src.height) (hc : c < 3) :
    (paste (paste (paste
        ⟨src.width, src.height, 3, fun _ _ _ => 0⟩ 0 src) 1 src) 2 src).pixel
      x y c = src.pixel x y 0 := by
  interval_cases c <;> simp [paste, hsrc, hx, hy]

/-- Claim C3: for a 1-channel source and a requested RGB pixel kind
(byte-rgb or float-rgb), `readImage` succeeds and, at every pixel, the
output's channels 0, 1 and 2 all equal the single source channel value
at that pixel. -/
theorem readImage_gray_to_rgb_replicates (k : PixelKind)
    (hk : k = PixelKind.byteRGB ∨ k = PixelKind.floatRGB)
    (src : SourceImage) (st : ReadState) (hsrc : src.nchannels = 1)
    (x y c : ℕ) (hx : x < src.width) (hy : y < src.height) (hc : c < 3) :
    (readImageSt k.channels (some src) st).2 = none ∧
    ((readImageSt k.channels (some src) st).1).buffer.getD
      ((y * src.width + x) * 3 + c) 0 = src.pixel x y 0 := by
  have hch : k.channels = 3 := by rcases hk with rfl | rfl <;> rfl
  rw [hch, readImageSt_rgb_of_gray src st hsrc]
  exact ⟨rfl, by
    rw [readImage_extract_getD src.width src.height 3 _ x y c hx hy hc]
    exact paste3_pixel src hsrc x y c hx hy hc⟩

/-- Witness for C3 at a concrete input: a 2×1 single-channel source with
values 7 and 9 is replicated into all three output channels. -/
theorem readImage_gray_to_rgb_replicates_witness :
    (readImageSt PixelKind.floatRGB.channels
        (some ⟨2, 1, 1, fun x _ _ => 7 + 2 * x⟩) ⟨0, 0, []⟩).2 = none ∧
    ((readImageSt PixelKind.floatRGB.channels
        (some ⟨2, 1, 1, fun x _ _ => 7 + 2 * x⟩) ⟨0, 0, []⟩).1).buffer.getD
      ((0 * 2 + 1) * 3 + 2) 0 = (9 : ℚ) :=
  ⟨(readImage_gray_to_rgb_replicates PixelKind.floatRGB (Or.inr rfl)
      ⟨2, 1, 1, fun x _ _ => 7 + 2 * x⟩ ⟨0, 0, []⟩ rfl 1 0 2
      (by decide) (by decide) (by decide)).1,
   by
    rw [(readImage_gray_to_rgb_replicates PixelKind.floatRGB (Or.inr rfl)
      ⟨2, 1, 1, fun x _ _ => 7 + 2 * x⟩ ⟨0, 0, []⟩ rfl 1 0 2
      (by decide) (by decide) (by decide)).2]
    norm_num⟩

/-- Branch shape of `readImage` when reducing a (≥ 3)-channel source to
a 1-channel target: the working image is the Rec.709 channel sum, and
no error is raised. -/
theorem readImageSt_gray_of_rgb (src : SourceImage) (st : ReadState)
    (hsrc : 3 ≤ src.nchannels) :
    readImageSt 1 (some src) st =
      ({ width := src.width
         height := src.height
         buffer := List.ofFn (fun i : Fin (src.width * src.height * 1) =>
           (channelSum3 src).pixel ((i : ℕ) / 1 % src.width)
             ((i : ℕ) / 1 / src.width) ((i : ℕ) % 1)) }, none) := by
  simp only [readImageSt, channelSum3]
  norm_num [hsrc]

/-- Claim C4: for a source with ≥ 3 channels whose first three channels
all hold the value `v` at every pixel, `readImage` with a grayscale
target succeeds and the single output channel equals `v` at every pixel
(the fixed weights 0.2126, 0.7152, 0.0722 sum to 1 exactly; component
arithmetic is modelled as exact rationals). -/
theorem readImage_rgb_to_gray_neutral (k : PixelKind)
    (hk : k = PixelKind.byteGray ∨ k = PixelKind.floatGray)
    (src : SourceImage) (st : ReadState) (v : ℚ)
    (hsrc : 3 ≤ src.nchannels)
    (hpix : ∀ x y, x < src.width → y < src.height →
      src.pixel x y 0 = v ∧ src.pixel x y 1 = v ∧ src.pixel x y 2 = v)
    (x y : ℕ) (hx : x < src.width) (hy : y < src.height) :
    (readImageSt k.channels (some src) st).2 = none ∧
    ((readImageSt k.channels (some src) st).1).buffer.getD
      (y * src.width + x) 0 = v := by
  have hch : k.channels = 1 := by rcases hk with rfl | rfl <;> rfl
  rw [hch, readImageSt_gray_of_rgb src st hsrc]
  refine ⟨rfl, ?_⟩
  have hidx : y * src.width + x = (y * src.width + x) * 1 + 0 := by ring
  rw [hidx, readImage_extract_getD src.width src.height 1 _ x y 0 hx hy
    (by omega)]
  obtain ⟨h0, h1, h2⟩ := hpix x y hx hy
  simp only [channelSum3, if_pos rfl, h0, h1, h2]
  simp
  ring

/-- Witness for C4 at a concrete input: a 1×1 three-channel source with
all channels 5 reduces to the grayscale value 5. -/
theorem readImage_rgb_to_gray_neutral_witness :
    (readImageSt PixelKind.floatGray.channels
        (some ⟨1, 1, 3, fun _ _ _ => 5⟩) ⟨0, 0, []⟩).2 = none ∧
    ((readImageSt PixelKind.floatGray.channels
        (some ⟨1, 1, 3, fun _ _ _ => 5⟩) ⟨0, 0, []⟩).1).buffer.getD 0 0
      = (5 : ℚ) :=
  ⟨(readImage_rgb_to_gray_neutral PixelKind.floatGray (Or.inr rfl)
      ⟨1, 1, 3, fun _ _ _ => 5⟩ ⟨0, 0, []⟩ 5 (by decide)
      (fun _ _ _ _ => ⟨rfl, rfl, rfl⟩) 0 0 (by decide) (by decide)).1,
   (readImage_rgb_to_gray_neutral PixelKind.floatGray (Or.inr rfl)
      ⟨1, 1, 3, fun _ _ _ => 5⟩ ⟨0, 0, []⟩ 5 (by decide)
      (fun _ _ _ _ => ⟨rfl, rfl, rfl⟩) 0 0 (by decide) (by decide)).2⟩

/-- Claim C8: whenever `readImage` raises an error (file-open failure or
unsupported channel layout), the caller's `width`, `height` and `buffer`
outputs are exactly as they were before the call — both throw sites
precede every write to the outputs. -/
theorem readImage_error_preserves_outputs (k : PixelKind)
    (source : Option SourceImage) (st : ReadState)
    (h : (readImageSt k.channels source st).2 ≠ none) :
    (readImageSt k.channels source st).1 = st := by
  match source with
  | none => rfl
  | some src =>
    by_cases hb : src.nchannels ≠ 1 ∧ src.nchannels < 3
    · simp only [readImageSt, if_pos hb]
    · exact absurd (by simp only [readImageSt, if_neg hb]) h

/-- Witness for C8 at a concrete input: an unopenable source leaves the
outputs untouched. -/
theorem readImage_error_preserves_outputs_witness :
    (readImageSt PixelKind.byteGray.channels none ⟨7, 9, [1, 2]⟩).2 ≠ none ∧
    (readImageSt PixelKind.byteGray.channels none ⟨7, 9, [1, 2]⟩).1
      = ⟨7, 9, [1, 2]⟩ :=
  ⟨by decide,
   readImage_error_preserves_outputs PixelKind.byteGray none ⟨7, 9, [1, 2]⟩
     (by decide)⟩

/-!
## resizeImage and convolveImage

`resizeImage(typeDesc, inWidth, inHeight, nchannels, downscale,
inBuffer, outBuffer, filter, filterSize)` computes
`outWidth = inWidth / downscale`, `outHeight = inHeight / downscale`
(C++ `int` division, i.e. floor for the positive arguments of the
claim), resizes `outBuffer` to `outWidth * outHeight` *elements*, and
delegates the resampling itself to the library. `convolveImage` resizes
`outBuffer` to `inBuffer.size()` elements and delegates the convolution
to the library.

The resampled / convolved pixel contents are produced entirely by the
library; they are modelled by an abstract per-index generator passed as
a parameter, since no claim constrains them.
-/

/-- The `resizeImage` output: the dimensions it computes and the buffer
it allocates and hands to the library. -/
structure ResizeResult (α : Type) where
  outWidth : ℕ
  outHeight : ℕ
  outBuffer : List α
deriving DecidableEq

/-- `resizeImage` embedded from the source: output dimensions are the
truncating divisions `inWidth / downscale` and `inHeight / downscale`,
and the output buffer is allocated with `outWidth * outHeight` elements;
`resample` abstracts the library resampling that fills it. -/
def resizeImage {α : Type} (inWidth inHeight downscale : ℕ)
    (resample : ℕ → α) : ResizeResult α :=
  let outWidth := inWidth / downscale
  let outHeight := inHeight / downscale
  { outWidth := outWidth
    outHeight := outHeight
    outBuffer := (List.range (outWidth * outHeight)).map resample }

/-- `convolveImage` embedded from the source: the output buffer is
allocated with exactly as many elements as the input buffer
(`outBuffer.resize(inBuffer.size())`); `conv` abstracts the library
convolution that fills it. -/
def convolveImage {α : Type} (inBuffer : List α) (conv : ℕ → α) : List α :=
  (List.range inBuffer.length).map conv

/-- Claim C5: for positive `inWidth`, `inHeight` and `downscaleFactor`,
`resizeImage` returns a buffer of dimensions
`⌊inWidth / downscaleFactor⌋ × ⌊inHeight / downscaleFactor⌋`, allocated
at that size; with `downscaleFactor = 1` the output dimensions equal
the input dimensions. -/
theorem resizeImage_output_dims {α : Type} (inWidth inHeight downscale : ℕ)
    (resample : ℕ → α) (hW : 0 < inWidth) (hH : 0 < inHeight)
    (hd : 0 < downscale) :
    (resizeImage inWidth inHeight downscale resample).outWidth
        = inWidth / downscale ∧
    (resizeImage inWidth inHeight downscale resample).outHeight
        = inHeight / downscale ∧
    (resizeImage inWidth inHeight downscale resample).outBuffer.length
        = (inWidth / downscale) * (inHeight / downscale) ∧
    (downscale = 1 →
      (resizeImage inWidth inHeight downscale resample).outWidth = inWidth ∧
      (resizeImage inWidth inHeight downscale resample).outHeight = inHeight) := by
  refine ⟨rfl, rfl, by simp [resizeImage], ?_⟩
  rintro rfl
  simp [resizeImage]

/-- Witness for C5 at a concrete input: a 7×5 image downscaled by 2
yields a 3×2 output buffer of 6 elements, and downscale 1 is the
identity on dimensions. -/
theorem resizeImage_output_dims_witness :
    (resizeImage 7 5 2 (fun _ => (0 : ℕ))).outWidth = 7 / 2 ∧
    (resizeImage 7 5 2 (fun _ => (0 : ℕ))).outHeight = 5 / 2 ∧
    (resizeImage 7 5 2 (fun _ => (0 : ℕ))).outBuffer.length = (7 / 2) * (5 / 2) ∧
    (2 = 1 →
      (resizeImage 7 5 2 (fun _ => (0 : ℕ))).outWidth = 7 ∧
      (resizeImage 7 5 2 (fun _ => (0 : ℕ))).outHeight = 5) :=
  resizeImage_output_dims 7 5 2 (fun _ => (0 : ℕ))
    (by decide) (by decide) (by decide)

/-- Claim C7 (counterexample): the uniform sizing rule
"length = width × height × channelsPerElement in the buffer's element
type" fails for `resizeImage` with a 3-channel pixel kind — already for
a 1×1 output, the allocated length is 1 element, not
`1 * 1 * channels = 3`. -/
theorem buffer_sizing_not_uniform :
    ¬ ((resizeImage 1 1 1 (fun _ => (0 : ℕ))).outBuffer.length
        = (resizeImage 1 1 1 (fun _ => (0 : ℕ))).outWidth
          * (resizeImage 1 1 1 (fun _ => (0 : ℕ))).outHeight
          * PixelKind.byteRGB.channels) := by
  decide

/-- Claim C7 (amended): the three operations size their buffers by
three different rules — `readImage` fills
`width * height * nchannels` scalar components, `resizeImage` allocates
`outWidth * outHeight` elements, and `convolveImage` allocates exactly
the input buffer's element count; the rules coincide (at
`width * height` elements) only for the 1-channel pixel kinds. -/
theorem buffer_sizing_per_operation {α : Type} (k : PixelKind)
    (src : SourceImage) (st : ReadState) (w h d : ℕ)
    (resample : ℕ → α) (conv : ℕ → α) (inBuffer : List α) :
    ((readImageSt k.channels (some src) st).2 = none →
      ((readImageSt k.channels (some src) st).1).buffer.length
        = src.width * src.height * k.channels) ∧
    (resizeImage w h d resample).outBuffer.length = (w / d) * (h / d) ∧
    (convolveImage inBuffer conv).length = inBuffer.length ∧
    (k.channels = 1 →
      src.width * src.height * k.channels = src.width * src.height ∧
      (resizeImage w h 1 resample).outBuffer.length = w * h) := by
  refine ⟨?_, by simp [resizeImage], by simp [convolveImage], ?_⟩
  · intro hok
    by_cases hb : src.nchannels ≠ 1 ∧ src.nchannels < 3
    · have hbad : (readImageSt k.channels (some src) st).2
          = some ReadError.unsupportedChannelLayout := by
        simp only [readImageSt, if_pos hb]
      rw [hok] at hbad
      exact Option.noConfusion hbad
    · simp only [readImageSt, if_neg hb]
      simp
  · intro h1
    exact ⟨by rw [h1, Nat.mul_one], by simp [resizeImage]⟩

/-- Witness for the amended C7 theorem at concrete inputs. -/
theorem buffer_sizing_per_operation_witness :
    ((readImageSt PixelKind.byteRGB.channels
        (some ⟨2, 2, 1, fun _ _ _ => 0⟩) ⟨0, 0, []⟩).1).buffer.length
      = 2 * 2 * PixelKind.byteRGB.channels ∧
    (resizeImage 4 6 2 (fun _ => (0 : ℕ))).outBuffer.length = (4 / 2) * (6 / 2) ∧
    (convolveImage [5, 6, 7] (fun _ => (0 : ℕ))).length = 3 ∧
    2 * 2 * PixelKind.byteGray.channels = 2 * 2 :=
  ⟨(buffer_sizing_per_operation PixelKind.byteRGB
      ⟨2, 2, 1, fun _ _ _ => 0⟩ ⟨0, 0, []⟩ 4 6 2
      (fun _ => (0 : ℕ)) (fun _ => (0 : ℕ)) [5, 6, 7]).1 (by decide),
   (buffer_sizing_per_operation PixelKind.byteRGB
      ⟨2, 2, 1, fun _ _ _ => 0⟩ ⟨0, 0, []⟩ 4 6 2
      (fun _ => (0 : ℕ)) (fun _ => (0 : ℕ)) [5, 6, 7]).2.1,
   (buffer_sizing_per_operation PixelKind.byteRGB
      ⟨2, 2, 1, fun _ _ _ => 0⟩ ⟨0, 0, []⟩ 4 6 2
      (fun _ => (0 : ℕ)) (fun _ => (0 : ℕ)) [5, 6, 7]).2.2.1,
   ((buffer_sizing_per_operation PixelKind.byteGray
      ⟨2, 2, 1, fun _ _ _ => 0⟩ ⟨0, 0, []⟩ 4 6 2
      (fun _ => (0 : ℕ)) (fun _ => (0 : ℕ)) [5, 6, 7]).2.2.2 rfl).1⟩

/-!
## writeImage

`writeImage(path, typeDesc, width, height, nchannels, buffer)` first
computes `isEXR = path.size() > 4 && path.compare(path.size() - 4, 4,
".exr") == 0` (a case-sensitive byte comparison of the last four
characters). On the EXR branch it overrides the descriptor's element
format to half-precision float and requests `"piz"` compression; on the
other branch it requests `"4:4:4"` JPEG chroma subsampling, compression
quality 100 and `"none"` compression. The write itself is delegated to
the library.
-/

/-- The EXR-path test embedded from the source: the path is longer than
four characters and its last four characters are exactly the lowercase
`".exr"`. -/
def isEXRPath (path : List Char) : Bool :=
  decide (4 < path.length) && (path.drop (path.length - 4) == ".exr".toList)

/-- The encoding hints `writeImage` sets on the descriptor before
handing it to the library writer. -/
structure WriteSettings where
  halfFormat : Bool
  compression : String
  jpegSubsampling : Option String
  compressionQuality : Option ℕ
deriving DecidableEq

/-- The hint selection of `writeImage`, embedded from the source's two
branches. -/
def writeImageSettings (path : List Char) : WriteSettings :=
  if isEXRPath path then
    { halfFormat := true
      compression := "piz"
      jpegSubsampling := none
      compressionQuality := none }
  else
    { halfFormat := false
      compression := "none"
      jpegSubsampling := some "4:4:4"
      compressionQuality := some 100 }

/-- Claim C6: on every `writeImage` call exactly one of the two
branches is taken — the EXR branch (element format overridden to
half-precision float, PIZ compression requested) precisely when the
path passes the EXR test, and otherwise the branch requesting 4:4:4
chroma subsampling, compression quality 100 and no compression. -/
theorem writeImage_branch_settings (path : List Char) :
    (isEXRPath path = true ∧ writeImageSettings path
        = { halfFormat := true
            compression := "piz"
            jpegSubsampling := none
            compressionQuality := none }) ∨
    (isEXRPath path = false ∧ writeImageSettings path
        = { halfFormat := false
            compression := "none"
            jpegSubsampling := some "4:4:4"
            compressionQuality := some 100 }) := by
  by_cases h : isEXRPath path = true
  · exact Or.inl ⟨h, by simp [writeImageSettings, h]⟩
  · have hf : isEXRPath path = false := by
      revert h; cases isEXRPath path <;> simp
    exact Or.inr ⟨hf, by simp [writeImageSettings, hf]⟩

/-- Claim C9: `writeImage` classifies a path as EXR iff the path is
strictly longer than four characters and its last four characters are
exactly the lowercase `".exr"`; in particular the path `".exr"` itself
and case variants such as `".EXR"` go through the non-EXR branch. -/
theorem isEXRPath_characterization :
    (∀ p : List Char, isEXRPath p = true ↔
      (4 < p.length ∧ List.IsSuffix (".exr".toList) p)) ∧
    isEXRPath ".exr".toList = false ∧
    isEXRPath "a.EXR".toList = false ∧
    isEXRPath "a.exr".toList = true := by
  refine ⟨?_, by decide, by decide, by decide⟩
  intro p
  simp only [isEXRPath, Bool.and_eq_true, decide_eq_true_eq, beq_iff_eq]
  refine and_congr_right (fun _ => ?_)
  rw [List.suffix_iff_eq_drop]
  have hlen : (".exr".toList).length = 4 := by decide
  rw [hlen]
  exact eq_comm

/-- The `assert(nchannels == 1 || nchannels >= 3)` precondition at the
top of the internal `readImage` template. -/
def readImageChannelAssert (nchannels : ℕ) : Prop :=
  nchannels = 1 ∨ 3 ≤ nchannels

/-- Claim C10: every public `readImage` overload passes a requested
channel count of exactly 1 or exactly 3, so the internal assertion
`nchannels == 1 || nchannels >= 3` holds on every public entry and its
failure branch is unreachable from the public interface. -/
theorem readImage_overloads_satisfy_assert :
    ∀ k : PixelKind, (k.channels = 1 ∨ k.channels = 3) ∧
      readImageChannelAssert k.channels := by
  intro k
  cases k <;> simp [readImageChannelAssert, PixelKind.channels]

end ImageIOModel
